import Mathlib

set_option maxHeartbeats 1000000

/-! Shallow embedding of the hapi-api-version plugin (src/lib/index.js).
Strings are modelled as lists of characters (`Str`); the JavaScript values
that flow through the version pipeline (candidate versions, the published
`apiVersion`) are modelled by `JsVal`; version numbers are small machine
integers in the source, with no overflow, so `Int` is used directly.
Fallible JavaScript code (a thrown `TypeError`) is modelled with `Except`. -/

abbrev Str : Type := List Char

/-- Convert a Lean string literal into the character-list string model. -/
def js (s : String) : Str := s.data

/-- Split a string at the first occurrence of character `c`: returns the part
before it and, when `c` occurs, the part after it.  Used to model how hapi's
`request.setUrl` re-parses a URL into a path and a query string. -/
def splitFirst (c : Char) : Str → Str × Option Str
  | [] => ([], none)
  | x :: xs =>
    if x = c then ([], some xs)
    else
      let r := splitFirst c xs
      (x :: r.1, r.2)

/-- Split a string on every occurrence of `c` (JavaScript `String.split`). -/
def splitOnChar (c : Char) : Str → List Str
  | [] => [[]]
  | x :: xs =>
    let r := splitOnChar c xs
    if x = c then [] :: r
    else
      match r with
      | [] => [[x]]
      | h :: t => (x :: h) :: t

/-- Join strings with the single-character separator `c`. -/
def joinWith (c : Char) : List Str → Str
  | [] => []
  | [x] => x
  | x :: y :: t => x ++ c :: joinWith c (y :: t)

/-- Whitespace recognised by JavaScript / Joi string trimming. -/
def isSpaceChar (c : Char) : Bool := c = ' ' || c = '\t' || c = '\n' || c = '\r'

/-- Trim leading and trailing whitespace (Joi's `.trim()` conversion). -/
def trimStr (s : Str) : Str :=
  ((s.dropWhile isSpaceChar).reverse.dropWhile isSpaceChar).reverse

/-- Decimal digit character for a digit value (0-9). -/
def digitChar : Nat → Char
  | 0 => '0'
  | 1 => '1'
  | 2 => '2'
  | 3 => '3'
  | 4 => '4'
  | 5 => '5'
  | 6 => '6'
  | 7 => '7'
  | 8 => '8'
  | _ => '9'

/-- Decimal rendering of a natural number, fuel-driven so that it reduces
definitionally (the fuel `n + 1` always suffices). -/
def natToCharsAux : Nat → Nat → Str → Str
  | 0, _, acc => acc
  | fuel + 1, n, acc =>
    if n < 10 then digitChar (n % 10) :: acc
    else natToCharsAux fuel (n / 10) (digitChar (n % 10) :: acc)

/-- Decimal rendering of a natural number. -/
def natToChars (n : Nat) : Str := natToCharsAux (n + 1) n []

/-- JavaScript number-to-string coercion for integers (as in `'v' + version`). -/
def intToChars (i : Int) : Str :=
  if i < 0 then '-' :: natToChars i.natAbs else natToChars i.toNat

/-- Numeric value of a string of decimal digits (`parseInt(s, 10)` on an
all-digits string, which is the only shape the source ever parses). -/
def digitsToNat (s : Str) : Nat := s.foldl (fun a c => a * 10 + (c.toNat - 48)) 0



/-- JavaScript values that the pipeline passes around as a candidate version:
`null` covers both `null` and `undefined`; integers, the number `NaN` (what
`parseInt` returns on input without a leading digit) and strings cover the
values a `getVersion` callback can observably return. -/
inductive JsVal
  | null
  | int (n : Int)
  | nan
  | str (s : Str)
deriving DecidableEq, Repr

/-- JavaScript truthiness of a candidate version: `null`/`undefined`, the
number `0`, `NaN` and the empty string are falsy. -/
def truthy : JsVal → Bool
  | JsVal.null => false
  | JsVal.int n => n != 0
  | JsVal.nan => false
  | JsVal.str s => !s.isEmpty

/-- JavaScript string coercion of a value (used by `'v' + requestedVersion`). -/
def jsValStr : JsVal → Str
  | JsVal.null => js "null"
  | JsVal.int n => intToChars n
  | JsVal.nan => js "NaN"
  | JsVal.str s => s

/-- Hoek.contain(validVersions, value): strict (`===`) membership of the value
in the configured integer array; a non-number value is never a member. -/
def hoekContain (vv : List Int) : JsVal → Bool
  | JsVal.int n => vv.contains n
  | _ => false

/-- The digit phase of JavaScript `parseInt`: take the longest leading run of
decimal digits, apply the sign, and produce `NaN` when the run is empty. -/
def parseIntDigits (u : Str) (neg : Bool) : JsVal :=
  if (u.takeWhile Char.isDigit).isEmpty then JsVal.nan
  else if neg then JsVal.int (-(Int.ofNat (digitsToNat (u.takeWhile Char.isDigit))))
  else JsVal.int (Int.ofNat (digitsToNat (u.takeWhile Char.isDigit)))

/-- JavaScript `parseInt(s, 10)`: skip leading whitespace, read an optional
sign, then the longest leading run of decimal digits — so `parseInt("1abc")`
is `1` — and `NaN` when no digit follows. -/
def parseIntJs (s : Str) : JsVal :=
  match s.dropWhile isSpaceChar with
  | '-' :: u => parseIntDigits u true
  | '+' :: u => parseIntDigits u false
  | u => parseIntDigits u false

/-! Request, route table and the per-request / per-server plugin state. -/

/-- The request metadata the plugin reads: method, parsed path (`request.path`,
query excluded), the raw query string (`request.url.path` is the path plus
`?query` when present) and the `accept` header. -/
structure Request where
  method : Str
  path : Str
  rawQuery : Option Str
  accept : Option Str
deriving DecidableEq, Repr

/-- hapi's `request.url.path`: the path followed by `?` and the query string
when a query string is present. -/
def Request.urlPath (r : Request) : Str :=
  r.path ++ (match r.rawQuery with | none => [] | some q => '?' :: q)

/-- hapi's `request.setUrl(u)`: re-parse `u` into a path and a query string,
leaving all other request data untouched. -/
def setUrl (r : Request) (u : Str) : Request :=
  { r with path := (splitFirst '?' u).1, rawQuery := (splitFirst '?' u).2 }

/-- A matched route: the plugin only reads its registered path string. -/
structure Route where
  path : Str
deriving DecidableEq, Repr

/-- Per-request coordination state (`request.plugins['hapi-api-version']`):
`apiVersion` is `null` until a resolution is published (line 78 creates the
object with only `count` and `useDefault`). -/
structure RequestPlugin where
  apiVersion : JsVal
  useDefault : Bool
  count : Nat
  descriptor : Option Str
deriving DecidableEq, Repr

/-- The object created at line 78 when no instance has touched the request. -/
def initialPlugin : RequestPlugin :=
  { apiVersion := JsVal.null, useDefault := true, count := 0, descriptor := none }

/-- An unclaimed per-request state whose attempt counter is `k` (the shape the
state has after `k` instances examined the request without resolving it). -/
def mkPl (k : Nat) : RequestPlugin :=
  { apiVersion := JsVal.null, useDefault := true, count := k, descriptor := none }

/-! The media-type variant of the version extractor (source lines 28-47). -/

/-- Modelled from the spec: the external `media-type` npm library, which is not
part of this repository.  Per the spec (section 4.1) it parses the `Accept`
header as a MIME media type `type/subtype(+suffix)(;params)`, reports
structural validity, and exposes the subtype (suffix stripped) and its
dot-separated facets. -/
structure MediaType where
  isValid : Bool
  subtype : Str
  subtypeFacets : List Str
deriving DecidableEq, Repr

/-- Characters allowed in a media type's type/subtype token. -/
def isTokenChar (c : Char) : Bool :=
  c.isAlpha || c.isDigit || c = '.' || c = '-' || c = '!' || c = '#' ||
    c = '$' || c = '&' || c = '^' || c = '_'

/-- Modelled from the spec: `MediaType.fromString` of the external `media-type`
library.  Parameters after `;` are ignored, the part before the first `/` is
the type, the part after it (with the `+suffix`, if any, stripped) is the
subtype, and the subtype's facets are obtained by splitting it on `.`. -/
def mediaTypeFromString (s : Str) : MediaType :=
  match splitOnChar '/' ((splitOnChar ';' s).headD []) with
  | [ty, rest] =>
    let plusParts := splitOnChar '+' rest
    let subty := if plusParts.length ≥ 2 then joinWith '+' plusParts.dropLast else rest
    { isValid := !ty.isEmpty && ty.all isTokenChar && !subty.isEmpty && subty.all isTokenChar,
      subtype := subty,
      subtypeFacets := splitOnChar '.' subty }
  | _ => { isValid := false, subtype := [], subtypeFacets := [] }

/-- Alphanumeric character class `[a-zA-Z0-9]` of the source's regex. -/
def isAlnumChar (c : Char) : Bool := c.isAlpha || c.isDigit

/-- The source's regex test `/^vnd.[a-zA-Z0-9]+\.v[0-9]+$/` (line 36), written
as a deterministic matcher: after the literal `vnd` the unescaped `.` matches
one arbitrary character, then a non-empty alphanumeric run, then a literal
`.`, a literal `v` and a non-empty digit run ending the string.  (The regex
`.` does not match a newline, but a newline cannot occur in a subtype the
media-type library reports as valid, so the guarded uses agree.) -/
def matchesVersionPattern : Str → Bool
  | 'v' :: 'n' :: 'd' :: _ :: rest =>
    let tok := rest.takeWhile isAlnumChar
    let rest2 := rest.dropWhile isAlnumChar
    !tok.isEmpty &&
      (match rest2 with
       | '.' :: 'v' :: ds => !ds.isEmpty && ds.all Char.isDigit
       | _ => false)
  | _ => false

/-- JavaScript `String.replace('v', '')`: remove the first occurrence of `v`. -/
def replaceFirstV : Str → Str
  | [] => []
  | c :: cs => if c = 'v' then cs else c :: replaceFirstV cs

/-- Source lines 28-47, `_extractVersionFromAcceptHeader` (the leading
underscore is dropped for Lean).  Returns `.ok JsVal.null` for a missing (or
empty, hence falsy) header, `.ok (JsVal.int (-1))` as the malformed sentinel,
`.ok (JsVal.int n)` for a well-formed vendor media type, and `.error ()` when
the JavaScript would throw: when the regex matched via its unescaped dot with
a non-dot character, `subtypeFacets` has only two entries and
`subtypeFacets[2].replace` is a `TypeError` on `undefined`. -/
def extractVersionFromAcceptHeader (accept : Option Str) (vendorName : Option Str) :
    Except Unit JsVal :=
  match accept with
  | none => Except.ok JsVal.null
  | some h =>
    if h.isEmpty then Except.ok JsVal.null
    else
      let media := mediaTypeFromString h
      if media.isValid && matchesVersionPattern media.subtype then
        if media.subtypeFacets.get? 1 ≠ vendorName then Except.ok (JsVal.int (-1))
        else
          match media.subtypeFacets.get? 2 with
          | none => Except.error ()
          | some f2 => Except.ok (JsVal.int (Int.ofNat (digitsToNat (replaceFirstV f2))))
      else Except.ok (JsVal.int (-1))

/-! Validated plugin options and the onRequest handler (source lines 49-133). -/

/-- The validated options of one plugin instance (the value Joi produces at
line 58).  `getVersion` is modelled as a function of the request alone: in the
source it also receives the options object it belongs to, which a callback
can only use as an opaque extra argument.  A callback may throw, hence
`Except`. -/
structure Options where
  validVersions : List Int
  defaultVersion : Int
  passiveMode : Bool
  basePath : Str
  vendorName : Option Str
  getVersion : Option (Request → Except Unit JsVal)
  descriptor : Str
  invalidVersionErrorCode : Int

/-- Source line 89: use the custom `getVersion` callback when configured,
otherwise the built-in accept-header extractor. -/
def extractVersion (opts : Options) (req : Request) : Except Unit JsVal :=
  match opts.getVersion with
  | some f => f req
  | none => extractVersionFromAcceptHeader req.accept opts.vendorName

/-- Source line 81: a request is claimed once a truthy `apiVersion` with
`useDefault === false` has been published. -/
def claimedB (p : RequestPlugin) : Bool := truthy p.apiVersion && !p.useDefault

/-- Whether an optional per-request state is claimed. -/
def claimedOpt : Option RequestPlugin → Bool
  | none => false
  | some p => claimedB p

/-- Source line 73: skip requests outside a non-root base path. -/
def basePathSkip (opts : Options) (req : Request) : Bool :=
  !(opts.basePath == js "/") && !(opts.basePath.isPrefixOf req.path)

/-- Source line 86: the per-request state after this instance increments the
attempt counter (creating the state first when absent, line 78). -/
def bump (pl0 : Option RequestPlugin) : RequestPlugin :=
  { pl0.getD initialPlugin with count := (pl0.getD initialPlugin).count + 1 }

/-- The literal descriptor recorded for a default resolution (line 124). -/
def defaultStr : Str := js "default"

/-- Source line 98: the invalid-version error message. -/
def joinComma : List Int → Str
  | [] => []
  | [x] => intToChars x
  | x :: y :: t => intToChars x ++ ',' :: joinComma (y :: t)

/-- Message of the invalid-version error response (line 98). -/
def invalidMsg (vv : List Int) : Str :=
  js "Invalid api-version. Valid values: " ++ joinComma vv

/-- The `v` path segment inserted by the rewrite (`'v' + requestedVersion`). -/
def vseg (x : JsVal) : Str := 'v' :: jsValStr x

/-- The resolution published at lines 120-125. -/
def resolvedPlugin (ver : JsVal) (useDef : Bool) (cnt : Nat) (opts : Options) :
    RequestPlugin :=
  { apiVersion := ver, useDefault := useDef, count := cnt,
    descriptor := some (if useDef then defaultStr else opts.descriptor) }

/-- What one onRequest invocation does to the request: pass it on (with the
possibly updated per-request state and whether the path was rewritten),
answer with an error response, or fault (a thrown extractor error). -/
inductive StepResult
  | next (req : Request) (plugin : Option RequestPlugin) (rewrote : Bool)
  | errorResp (code : Int) (msg : Str)
  | fault
deriving DecidableEq, Repr

/-- Source lines 113-126: build the version-qualified path, ask the route
table, and on a match whose registered path starts with the version-qualified
prefix rewrite the url (preserving the query string, line 117) and publish
the resolution; otherwise pass the request on untouched. -/
def rewriteStep (opts : Options) (req : Request) (rp : RequestPlugin)
    (vd : JsVal × Bool) (mr : Str → Str → Option Route) : StepResult :=
  match mr req.method
      (opts.basePath ++ vseg vd.1 ++ req.path.drop (opts.basePath.length - 1)) with
  | some route =>
    if (opts.basePath ++ vseg vd.1 ++ js "/").isPrefixOf route.path then
      StepResult.next
        (setUrl req (opts.basePath ++ vseg vd.1 ++ req.urlPath.drop (opts.basePath.length - 1)))
        (some (resolvedPlugin vd.1 vd.2 rp.count opts)) true
    else StepResult.next req (some rp) false
  | none => StepResult.next req (some rp) false

/-- Source lines 70-130: the onRequest extension of one plugin instance.
`serverCount` is `server.plugins['hapi-api-version'].count`, the number of
registered instances; `mr` is hapi's `server.match`. -/
def onRequest (opts : Options) (serverCount : Nat) (mr : Str → Str → Option Route)
    (req : Request) (pl0 : Option RequestPlugin) : StepResult :=
  if basePathSkip opts req then StepResult.next req pl0 false
  else if claimedB (pl0.getD initialPlugin) then
    StepResult.next req (some (pl0.getD initialPlugin)) false
  else
    match extractVersion opts req with
    | Except.error _ => StepResult.fault
    | Except.ok rv =>
      if opts.passiveMode && !(truthy rv) then StepResult.next req (some (bump pl0)) false
      else if truthy rv && !(hoekContain opts.validVersions rv) then
        StepResult.errorResp opts.invalidVersionErrorCode (invalidMsg opts.validVersions)
      else if !(truthy rv) && ((bump pl0).count != serverCount) then
        StepResult.next req (some (bump pl0)) false
      else
        rewriteStep opts req (bump pl0)
          (if truthy rv then (rv, false) else (JsVal.int opts.defaultVersion, true)) mr

/-! Running every registered instance over one request, in registration
order (hapi runs the onRequest extensions sequentially). -/

/-- Outcome of the whole pipeline on one request, with the number of path
rewrites that were performed along the way. -/
inductive PipeResult
  | done (req : Request) (plugin : Option RequestPlugin) (rewrites : Nat)
  | errorOut (code : Int) (msg : Str) (rewrites : Nat)
  | faultOut (rewrites : Nat)
deriving DecidableEq, Repr

/-- Fold the remaining instances over the request state. -/
def runPipelineAux (n : Nat) (mr : Str → Str → Option Route) :
    List Options → Request → Option RequestPlugin → Nat → PipeResult
  | [], req, pl, rw => PipeResult.done req pl rw
  | o :: rest, req, pl, rw =>
    match onRequest o n mr req pl with
    | StepResult.next req2 pl2 b =>
      runPipelineAux n mr rest req2 pl2 (rw + if b then 1 else 0)
    | StepResult.errorResp c m => PipeResult.errorOut c m rw
    | StepResult.fault => PipeResult.faultOut rw

/-- Run every registered instance over a fresh request. -/
def runPipeline (insts : List Options) (mr : Str → Str → Option Route)
    (req : Request) : PipeResult :=
  runPipelineAux insts.length mr insts req none 0

/-- Number of rewrites a pipeline outcome performed. -/
def rewritesOf : PipeResult → Nat
  | PipeResult.done _ _ rw => rw
  | PipeResult.errorOut _ _ rw => rw
  | PipeResult.faultOut rw => rw

/-- Attempt counter of an optional per-request state. -/
def pluginCount : Option RequestPlugin → Nat
  | none => 0
  | some p => p.count

/-! Registration (source lines 15-26 and 49-67): the options schema and the
per-server registry of descriptors. -/

/-- The raw options object handed to registration, before Joi validation.
Fields absent from the object are `none`. -/
structure RawOptions where
  validVersions : Option (List Int)
  defaultVersion : Option Int
  passiveMode : Option Bool
  basePath : Option Str
  vendorName : Option Str
  getVersion : Option (Request → Except Unit JsVal)
  descriptor : Option Str
  invalidVersionErrorCode : Option Int

/-- Continuation of `validateOptions` past the per-field string checks. -/
def validateOptionsTail (raw : RawOptions) (vv : List Int) (d : Int) :
    Except Str Options :=
  if (raw.descriptor.getD (js "mediatype")).isEmpty then
    Except.error (js "descriptor is not allowed to be empty")
  else if raw.descriptor.getD (js "mediatype") == js "default" then
    Except.error (js "descriptor contains an invalid value")
  else
    match raw.vendorName, raw.getVersion with
    | some _, some _ =>
      Except.error (js "options contains a conflict between exclusive peers vendorName, getVersion")
    | none, none =>
      Except.error (js "options must contain at least one of vendorName, getVersion")
    | vn, gv =>
      Except.ok
        { validVersions := vv, defaultVersion := d,
          passiveMode := raw.passiveMode.getD false,
          basePath := trimStr (raw.basePath.getD (js "/")),
          vendorName := vn.map trimStr, getVersion := gv,
          descriptor := raw.descriptor.getD (js "mediatype"),
          invalidVersionErrorCode := raw.invalidVersionErrorCode.getD 415 }

/-- Source lines 16-25, `internals.optionsSchema`: validVersions is a required
integer array with at least one item; defaultVersion is required and must be
one of validVersions; passiveMode defaults to false; basePath is trimmed,
must stay non-empty and defaults to the root; vendorName is trimmed and must
stay non-empty when given; descriptor must be non-empty, must not be the
literal `default` and defaults to `mediatype`; invalidVersionErrorCode
defaults to 415; exactly one of vendorName / getVersion must be present. -/
def validateOptions (raw : RawOptions) : Except Str Options :=
  match raw.validVersions with
  | none => Except.error (js "child validVersions fails because it is required")
  | some vv =>
    if vv.length < 1 then
      Except.error (js "validVersions must contain at least 1 items")
    else
      match raw.defaultVersion with
      | none => Except.error (js "child defaultVersion fails because it is required")
      | some d =>
        if !(vv.contains d) then
          Except.error (js "defaultVersion must be one of validVersions")
        else
          if (trimStr (raw.basePath.getD (js "/"))).isEmpty then
            Except.error (js "basePath is not allowed to be empty")
          else
            match raw.vendorName with
            | some vn =>
              if (trimStr vn).isEmpty then
                Except.error (js "vendorName is not allowed to be empty")
              else validateOptionsTail raw vv d
            | none => validateOptionsTail raw vv d

/-- Per-server registry (source line 61) together with the registered
onRequest extensions: `count` and `descriptors` are the process-wide
coordination state, `instances` the handlers added by `server.ext`. -/
structure ServerState where
  count : Nat
  descriptors : List Str
  instances : List Options

/-- A server with no registered plugin instance. -/
def emptyServer : ServerState := { count := 0, descriptors := [], instances := [] }

/-- Source lines 49-67, `exports.register`: validate the options, refuse a
duplicate descriptor, otherwise claim the descriptor, bump the instance count
and add the onRequest extension.  A refused registration reports the error to
`next` and leaves the server unchanged. -/
def registerS (raw : RawOptions) (s : ServerState) : ServerState × Option Str :=
  match validateOptions raw with
  | Except.error e => (s, some e)
  | Except.ok opts =>
    if s.descriptors.contains opts.descriptor then
      (s, some (js "hapi-api-version plugins contain duplicate descriptors"))
    else
      ({ count := s.count + 1, descriptors := s.descriptors ++ [opts.descriptor],
         instances := s.instances ++ [opts] }, none)

/-! Concrete configurations, requests and route tables used to evaluate the
pipeline on the scenarios of the spec's testable properties. -/

/-- The version-qualified path the rewrite engine builds for version `v`
(line 113): insert `v<version>` right after the base path. -/
def versionedPathOf (opts : Options) (v : Int) (p : Str) : Str :=
  opts.basePath ++ vseg (JsVal.int v) ++ p.drop (opts.basePath.length - 1)

/-- The example custom `getVersion` callback of the repository: read the
querystring parameter `version`; when it is present and truthy (a non-empty
string value) return `parseInt(request.query.version, 10)`, otherwise return
null — as written in src/test/index.js (line 1518) and in the readme's
custom-function section.  The readme's first example omits the radix, which
differs only on `0x`-prefixed values.  The query string is modelled as
single-valued parameters (an absent parameter, like an empty value, is falsy
and yields null). -/
def queryVersionCallback (req : Request) : Except Unit JsVal :=
  match req.rawQuery with
  | none => Except.ok JsVal.null
  | some q =>
    match ((splitOnChar '&' q).filterMap
        (fun kv => if (js "version=").isPrefixOf kv then some (kv.drop 8) else none)).head? with
    | none => Except.ok JsVal.null
    | some v =>
      if v.isEmpty then Except.ok JsVal.null else Except.ok (parseIntJs v)

/-- First pipeline instance of the multi-instance scenario: the built-in
accept-header extractor for vendor `mysuperapi`. -/
def c5opts1 : Options :=
  { validVersions := [1, 2], defaultVersion := 1, passiveMode := false, basePath := js "/",
    vendorName := some (js "mysuperapi"), getVersion := none,
    descriptor := js "mediatype", invalidVersionErrorCode := 415 }

/-- Second pipeline instance of the multi-instance scenario: the querystring
callback. -/
def c5opts2 : Options :=
  { validVersions := [1, 2], defaultVersion := 1, passiveMode := false, basePath := js "/",
    vendorName := none, getVersion := some queryVersionCallback,
    descriptor := js "querystring", invalidVersionErrorCode := 415 }

/-- Route table with the two versioned user routes. -/
def c5routes : List Route := [Route.mk (js "/v1/users"), Route.mk (js "/v2/users")]

/-- Exact-path route matching over `c5routes` (the route-matching collaborator
is opaque; versioned routes here have no path parameters). -/
def c5mr (_m p : Str) : Option Route := c5routes.find? (fun r => r.path == p)

/-- A request carrying both an accept-header version (2) and a querystring
version (1). -/
def c5reqA : Request :=
  { method := js "get", path := js "/users", rawQuery := some (js "version=1"),
    accept := some (js "application/vnd.mysuperapi.v2+json") }

/-- A request carrying only the querystring version (1). -/
def c5reqB : Request :=
  { method := js "get", path := js "/users", rawQuery := some (js "version=1"),
    accept := none }

/-- An instance whose custom extractor returns the number 0: a present,
non-null candidate that is not a member of validVersions. -/
def c2opts : Options :=
  { validVersions := [1], defaultVersion := 1, passiveMode := false, basePath := js "/",
    vendorName := none, getVersion := some (fun _ => Except.ok (JsVal.int 0)),
    descriptor := js "custom", invalidVersionErrorCode := 415 }

/-- A versionless request to the users path. -/
def c2req : Request :=
  { method := js "get", path := js "/users", rawQuery := none, accept := none }

/-- An instance whose custom extractor returns the out-of-range version 7. -/
def c2wOpts : Options :=
  { validVersions := [1, 2], defaultVersion := 1, passiveMode := false, basePath := js "/",
    vendorName := none, getVersion := some (fun _ => Except.ok (JsVal.int 7)),
    descriptor := js "custom7", invalidVersionErrorCode := 415 }

/-- A single media-type instance (used with a request with no accept header). -/
def c3opts : Options :=
  { validVersions := [1, 2], defaultVersion := 1, passiveMode := false, basePath := js "/",
    vendorName := some (js "mysuperapi"), getVersion := none,
    descriptor := js "mediatype", invalidVersionErrorCode := 415 }

/-- A request with no extractable version (no accept header). -/
def c3req : Request :=
  { method := js "get", path := js "/users", rawQuery := none, accept := none }

/-- An empty route table. -/
def noRoutes (_m _p : Str) : Option Route := none

/-- First instance of the re-resolution scenario: always extracts version 1. -/
def c4opts1 : Options :=
  { validVersions := [1, 2], defaultVersion := 1, passiveMode := false, basePath := js "/",
    vendorName := none, getVersion := some (fun _ => Except.ok (JsVal.int 1)),
    descriptor := js "first", invalidVersionErrorCode := 415 }

/-- Second instance of the re-resolution scenario: always extracts version 2. -/
def c4opts2 : Options :=
  { validVersions := [1, 2], defaultVersion := 1, passiveMode := false, basePath := js "/",
    vendorName := none, getVersion := some (fun _ => Except.ok (JsVal.int 2)),
    descriptor := js "second", invalidVersionErrorCode := 415 }

/-- Route table with only the version-2 route. -/
def c4mr (_m p : Str) : Option Route :=
  if p == js "/v2/users" then some (Route.mk (js "/v2/users")) else none

/-- A claimed per-request state, as published by a successful rewrite. -/
def c4claimedPl : RequestPlugin :=
  { apiVersion := JsVal.int 2, useDefault := false, count := 1,
    descriptor := some (js "mediatype") }

/-- A media-type instance whose configured vendor name is `v1`, a legal
configuration value. -/
def c6opts : Options :=
  { validVersions := [1, 2], defaultVersion := 1, passiveMode := false, basePath := js "/",
    vendorName := some (js "v1"), getVersion := none,
    descriptor := js "mediatype", invalidVersionErrorCode := 415 }

/-- A request whose subtype `vndzfoo.v1` is admitted by the source's regex via
its unescaped dot but has only two facets. -/
def c6req : Request :=
  { method := js "get", path := js "/users", rawQuery := none,
    accept := some (js "application/vndzfoo.v1+json") }

/-- A passive media-type instance. -/
def c8wOpts : Options :=
  { validVersions := [1, 2], defaultVersion := 1, passiveMode := true, basePath := js "/",
    vendorName := some (js "mysuperapi"), getVersion := none,
    descriptor := js "mediatype", invalidVersionErrorCode := 415 }

/-- A request with a wrong-vendor accept header. -/
def c10req : Request :=
  { method := js "get", path := js "/users", rawQuery := none,
    accept := some (js "application/vnd.other.v2+json") }

/-- A passive media-type instance whose configured vendor name is `v1`, a
legal configuration value. -/
def c10cexOpts : Options :=
  { validVersions := [1, 2], defaultVersion := 1, passiveMode := true, basePath := js "/",
    vendorName := some (js "v1"), getVersion := none,
    descriptor := js "mediatype", invalidVersionErrorCode := 415 }

/-- Raw options whose validVersions are a non-empty integer array containing a
negative number, with a matching defaultVersion. -/
def c9raw : RawOptions :=
  { validVersions := some [-1], defaultVersion := some (-1), passiveMode := none,
    basePath := none, vendorName := some (js "acme"), getVersion := none,
    descriptor := none, invalidVersionErrorCode := none }

/-- Raw options missing the required validVersions field. -/
def c9wRaw : RawOptions :=
  { validVersions := none, defaultVersion := some 1, passiveMode := none,
    basePath := none, vendorName := some (js "acme"), getVersion := none,
    descriptor := none, invalidVersionErrorCode := none }

/-! Helper lemmas about the pipeline state. -/

theorem bump_count (pl0 : Option RequestPlugin) : (bump pl0).count = pluginCount pl0 + 1 := by
  cases pl0 <;> rfl

theorem mkPl_count (k : Nat) : (mkPl k).count = k := rfl

theorem claimedB_getD (pl0 : Option RequestPlugin) :
    claimedB (pl0.getD initialPlugin) = claimedOpt pl0 := by
  cases pl0 <;> rfl

/-- Under a matching base path, an unclaimed request and a successful
extraction, `onRequest` reduces to its validation/rewrite core. -/
theorem onRequest_core (opts : Options) (n : Nat) (mr : Str → Str → Option Route)
    (req : Request) (pl0 : Option RequestPlugin) (rv : JsVal)
    (hbp : ((opts.basePath == js "/") || opts.basePath.isPrefixOf req.path) = true)
    (hnc : claimedB (pl0.getD initialPlugin) = false)
    (hex : extractVersion opts req = Except.ok rv) :
    onRequest opts n mr req pl0 =
      (if opts.passiveMode && !(truthy rv) then StepResult.next req (some (bump pl0)) false
       else if truthy rv && !(hoekContain opts.validVersions rv) then
         StepResult.errorResp opts.invalidVersionErrorCode (invalidMsg opts.validVersions)
       else if !(truthy rv) && ((bump pl0).count != n) then
         StepResult.next req (some (bump pl0)) false
       else
         rewriteStep opts req (bump pl0)
           (if truthy rv then (rv, false) else (JsVal.int opts.defaultVersion, true)) mr) := by
  have hskip : basePathSkip opts req = false := by
    unfold basePathSkip
    cases h1 : (opts.basePath == js "/") with
    | true => simp [h1]
    | false =>
      simp only [h1, Bool.false_or] at hbp
      simp [hbp]
  unfold onRequest
  rw [hskip, hnc, hex]
  simp

/-! Settling the claims. -/

/-- claim C5: with a media-type instance registered before a querystring
instance, a request carrying both version indications resolves via the
accept header (version 2) with count 1, and a request carrying only the
querystring version resolves via the querystring (version 1) with count 2. -/
theorem claim_C5 :
    runPipeline [c5opts1, c5opts2] c5mr c5reqA =
      PipeResult.done
        { method := js "get", path := js "/v2/users", rawQuery := some (js "version=1"),
          accept := some (js "application/vnd.mysuperapi.v2+json") }
        (some { apiVersion := JsVal.int 2, useDefault := false, count := 1,
                descriptor := some (js "mediatype") }) 1 ∧
    runPipeline [c5opts1, c5opts2] c5mr c5reqB =
      PipeResult.done
        { method := js "get", path := js "/v1/users", rawQuery := some (js "version=1"),
          accept := none }
        (some { apiVersion := JsVal.int 1, useDefault := false, count := 2,
                descriptor := some (js "querystring") }) 1 :=
  ⟨rfl, rfl⟩

/-- claim C6 (code bug): for the legal configuration `vendorName = "v1"` and
the header `application/vndzfoo.v1+json` — whose subtype does not match the
intended pattern `vnd.<token>.v<digits>` but is admitted by the source's
regex through its unescaped dot — the extractor does not return the malformed
sentinel: it throws (`subtypeFacets[2]` is `undefined`), and the request
faults instead of being answered or passed on. -/
theorem claim_C6_bug :
    extractVersionFromAcceptHeader (some (js "application/vndzfoo.v1+json")) (some (js "v1")) =
      Except.error () ∧
    onRequest c6opts 1 noRoutes c6req none = StepResult.fault :=
  ⟨rfl, rfl⟩

/-- claim C2, counterexample: the custom extractor returns the number 0 — a
present, non-null candidate that is not a member of validVersions `[1]` — yet
the pipeline does not answer with the invalid-version error: 0 is falsy in
JavaScript, so the request falls through to default resolution (and here, the
route table being empty, continues unchanged). -/
theorem claim_C2_cex :
    onRequest c2opts 1 noRoutes c2req none = StepResult.next c2req (some (mkPl 1)) false :=
  rfl

/-- claim C3, counterexample: a single instance, a request with no extractable
version, and no route at the default-qualified path `/v1/users`: all
registered instances have run, yet no resolution is published — the
per-request state keeps `apiVersion = null` and no descriptor, and the
request is passed on unrewritten. -/
theorem claim_C3_cex :
    runPipeline [c3opts] noRoutes c3req = PipeResult.done c3req (some (mkPl 1)) 0 :=
  rfl

/-- claim C4, counterexample: the first instance extracts the valid version 1
but no `/v1/users` route exists, so it does not claim the request; the second
instance then re-resolves (version 2) and performs the rewrite — refuting
that the first instance producing a non-empty valid version always claims the
request for all later instances. -/
theorem claim_C4_cex :
    runPipeline [c4opts1, c4opts2] c4mr c2req =
      PipeResult.done
        { method := js "get", path := js "/v2/users", rawQuery := none, accept := none }
        (some { apiVersion := JsVal.int 2, useDefault := false, count := 2,
                descriptor := some (js "second") }) 1 :=
  rfl

/-- claim C9, counterexample: validVersions `[-1]` is not a set of positive
integers, yet registration succeeds (no error is reported and the instance is
registered) — the schema only requires a non-empty integer array. -/
theorem claim_C9_cex :
    (registerS c9raw emptyServer).2 = none ∧ (registerS c9raw emptyServer).1.count = 1 :=
  ⟨rfl, rfl⟩

/-- Rewrite-engine case: no route at the version-qualified path. -/
theorem rewriteStep_none (opts : Options) (req : Request) (rp : RequestPlugin)
    (vd : JsVal × Bool) (mr : Str → Str → Option Route)
    (h : mr req.method
      (opts.basePath ++ vseg vd.1 ++ req.path.drop (opts.basePath.length - 1)) = none) :
    rewriteStep opts req rp vd mr = StepResult.next req (some rp) false := by
  unfold rewriteStep
  rw [h]

/-- Rewrite-engine case: a route matches and its registered path starts with
the version-qualified prefix. -/
theorem rewriteStep_hit (opts : Options) (req : Request) (rp : RequestPlugin)
    (vd : JsVal × Bool) (mr : Str → Str → Option Route) (route : Route)
    (h : mr req.method
      (opts.basePath ++ vseg vd.1 ++ req.path.drop (opts.basePath.length - 1)) = some route)
    (hpre2 : (opts.basePath ++ vseg vd.1 ++ js "/").isPrefixOf route.path = true) :
    rewriteStep opts req rp vd mr =
      StepResult.next
        (setUrl req (opts.basePath ++ vseg vd.1 ++ req.urlPath.drop (opts.basePath.length - 1)))
        (some (resolvedPlugin vd.1 vd.2 rp.count opts)) true := by
  unfold rewriteStep
  rw [h]
  simp only [hpre2, if_true, ite_true]

/-- Rewrite-engine case: a route matches but its registered path does not
start with the version-qualified prefix. -/
theorem rewriteStep_miss (opts : Options) (req : Request) (rp : RequestPlugin)
    (vd : JsVal × Bool) (mr : Str → Str → Option Route) (route : Route)
    (h : mr req.method
      (opts.basePath ++ vseg vd.1 ++ req.path.drop (opts.basePath.length - 1)) = some route)
    (hpre2 : (opts.basePath ++ vseg vd.1 ++ js "/").isPrefixOf route.path = false) :
    rewriteStep opts req rp vd mr = StepResult.next req (some rp) false := by
  unfold rewriteStep
  rw [h]
  simp only [hpre2, Bool.false_eq_true, if_false, ite_false]

/-- claim C1: when the extractor yields a version `v` that is a member of the
configured validVersions (positive integers, per the configuration data
model), then: if a route exists at the v-qualified path and its registered
path begins with the version-qualified prefix, the request's routing path is
rewritten to the version-qualified path and the published resolution has
`apiVersion = v` and `useDefault = false`; and if no such route exists (no
match, or a match without the prefix), the request is passed on with its path
unchanged and no error is raised. -/
theorem claim_C1 (opts : Options) (n : Nat) (mr : Str → Str → Option Route)
    (req : Request) (pl0 : Option RequestPlugin) (v : Int)
    (hbp : ((opts.basePath == js "/") || opts.basePath.isPrefixOf req.path) = true)
    (hnc : claimedB (pl0.getD initialPlugin) = false)
    (hex : extractVersion opts req = Except.ok (JsVal.int v))
    (hmem : opts.validVersions.contains v = true)
    (hpos : ∀ x ∈ opts.validVersions, 0 < x) :
    (∀ route : Route, mr req.method (versionedPathOf opts v req.path) = some route →
        (opts.basePath ++ vseg (JsVal.int v) ++ js "/").isPrefixOf route.path = true →
        onRequest opts n mr req pl0 =
          StepResult.next
            (setUrl req (opts.basePath ++ vseg (JsVal.int v) ++
              req.urlPath.drop (opts.basePath.length - 1)))
            (some { apiVersion := JsVal.int v, useDefault := false,
                    count := pluginCount pl0 + 1, descriptor := some opts.descriptor }) true) ∧
    (∀ route : Route, mr req.method (versionedPathOf opts v req.path) = some route →
        (opts.basePath ++ vseg (JsVal.int v) ++ js "/").isPrefixOf route.path = false →
        onRequest opts n mr req pl0 = StepResult.next req (some (bump pl0)) false) ∧
    (mr req.method (versionedPathOf opts v req.path) = none →
        onRequest opts n mr req pl0 = StepResult.next req (some (bump pl0)) false) := by
  have hv0 : truthy (JsVal.int v) = true := by
    have hm : v ∈ opts.validVersions := by rw [← List.elem_iff]; exact hmem
    have := hpos v hm
    simp only [truthy, bne_iff_ne, ne_eq]
    omega
  have hcontain : hoekContain opts.validVersions (JsVal.int v) = true := hmem
  have hcore := onRequest_core opts n mr req pl0 (JsVal.int v) hbp hnc hex
  rw [hv0, hcontain] at hcore
  simp at hcore
  unfold versionedPathOf
  refine ⟨?_, ?_, ?_⟩
  · intro route hr hpre2
    rw [hcore, rewriteStep_hit opts req (bump pl0) (JsVal.int v, false) mr route hr hpre2]
    have hcnt : (bump pl0).count = pluginCount pl0 + 1 := bump_count pl0
    simp [resolvedPlugin, hcnt]
  · intro route hr hpre2
    rw [hcore, rewriteStep_miss opts req (bump pl0) (JsVal.int v, false) mr route hr hpre2]
  · intro hr
    rw [hcore, rewriteStep_none opts req (bump pl0) (JsVal.int v, false) mr hr]

/-- claim C1, witness: the media-type instance, the accept header requesting
version 2 and the route table containing `/v2/users`. -/
theorem claim_C1_w :
    onRequest c5opts1 2 c5mr c5reqA none =
      StepResult.next
        { method := js "get", path := js "/v2/users", rawQuery := some (js "version=1"),
          accept := some (js "application/vnd.mysuperapi.v2+json") }
        (some { apiVersion := JsVal.int 2, useDefault := false, count := 1,
                descriptor := some (js "mediatype") }) true :=
  (claim_C1 c5opts1 2 c5mr c5reqA none 2 (by decide) (by decide) rfl (by decide)
    (by decide)).1 (Route.mk (js "/v2/users")) rfl (by decide)

/-- claim C2 (amended): when extraction yields a present and truthy candidate
(any non-zero number, or a non-empty string) that is not a member of
validVersions — the malformed sentinel -1 included — the pipeline answers
with the configured invalidVersionErrorCode and the message enumerating the
valid versions, and the path is not rewritten (the request is never passed
on).  A present but falsy candidate such as the number 0 is instead treated
as "no version requested" (see the counterexample). -/
theorem claim_C2 (opts : Options) (n : Nat) (mr : Str → Str → Option Route)
    (req : Request) (pl0 : Option RequestPlugin) (rv : JsVal)
    (hbp : ((opts.basePath == js "/") || opts.basePath.isPrefixOf req.path) = true)
    (hnc : claimedB (pl0.getD initialPlugin) = false)
    (hex : extractVersion opts req = Except.ok rv)
    (ht : truthy rv = true)
    (hnm : hoekContain opts.validVersions rv = false) :
    onRequest opts n mr req pl0 =
      StepResult.errorResp opts.invalidVersionErrorCode (invalidMsg opts.validVersions) := by
  rw [onRequest_core opts n mr req pl0 rv hbp hnc hex]
  simp [ht, hnm]

/-- claim C2, witness: a custom extractor returning the out-of-range
version 7 with validVersions `[1, 2]`. -/
theorem claim_C2_w :
    onRequest c2wOpts 1 noRoutes c2req none = StepResult.errorResp 415 (invalidMsg [1, 2]) :=
  claim_C2 c2wOpts 1 noRoutes c2req none (JsVal.int 7) (by decide) (by decide) rfl
    (by decide) (by decide)

/-- claim C8: a passive instance receiving a request with no extractable
version passes the request on untouched: no error, no rewrite, no default
applied, and the per-request state changes only by the incremented attempt
counter — its resolution fields (apiVersion, descriptor) are untouched, so
for a fresh request no resolution is published. -/
theorem claim_C8 (opts : Options) (n : Nat) (mr : Str → Str → Option Route)
    (req : Request) (pl0 : Option RequestPlugin)
    (hps : opts.passiveMode = true)
    (hbp : ((opts.basePath == js "/") || opts.basePath.isPrefixOf req.path) = true)
    (hnc : claimedB (pl0.getD initialPlugin) = false)
    (hex : extractVersion opts req = Except.ok JsVal.null) :
    onRequest opts n mr req pl0 = StepResult.next req (some (bump pl0)) false ∧
    (bump pl0).apiVersion = (pl0.getD initialPlugin).apiVersion ∧
    (bump pl0).descriptor = (pl0.getD initialPlugin).descriptor := by
  refine ⟨?_, rfl, rfl⟩
  rw [onRequest_core opts n mr req pl0 JsVal.null hbp hnc hex]
  simp [hps, truthy]

/-- claim C8, witness: the passive media-type instance and a request without
an accept header. -/
theorem claim_C8_w :
    onRequest c8wOpts 1 noRoutes c3req none = StepResult.next c3req (some (mkPl 1)) false ∧
    (bump (none : Option RequestPlugin)).apiVersion = initialPlugin.apiVersion ∧
    (bump (none : Option RequestPlugin)).descriptor = initialPlugin.descriptor :=
  claim_C8 c8wOpts 1 noRoutes c3req none rfl (by decide) (by decide) rfl

/-- claim C10 (amended): a passive instance whose extraction yields the
malformed sentinel -1 (accept header present but structurally invalid,
non-matching subtype, or wrong vendor) still answers with the configured
invalidVersionErrorCode: passive mode only bypasses processing when no
version at all was extracted, and the sentinel is truthy.  Exception, forced
by the counterexample: the malformed headers that hit the unescaped-dot
defect of the extractor (the claim C6 family) make the extractor throw, and
the request faults instead of receiving the error response. -/
theorem claim_C10 (opts : Options) (n : Nat) (mr : Str → Str → Option Route)
    (req : Request) (pl0 : Option RequestPlugin)
    (_hps : opts.passiveMode = true)
    (hbp : ((opts.basePath == js "/") || opts.basePath.isPrefixOf req.path) = true)
    (hnc : claimedB (pl0.getD initialPlugin) = false)
    (hex : extractVersion opts req = Except.ok (JsVal.int (-1)))
    (hpos : ∀ x ∈ opts.validVersions, 0 < x) :
    onRequest opts n mr req pl0 =
      StepResult.errorResp opts.invalidVersionErrorCode (invalidMsg opts.validVersions) := by
  have hnm : hoekContain opts.validVersions (JsVal.int (-1)) = false := by
    cases h : opts.validVersions.contains (-1) with
    | false =>
      show opts.validVersions.contains (-1) = false
      exact h
    | true =>
      have hm : (-1 : Int) ∈ opts.validVersions := by rw [← List.elem_iff]; exact h
      have := hpos _ hm
      omega
  rw [onRequest_core opts n mr req pl0 (JsVal.int (-1)) hbp hnc hex]
  simp [truthy, hnm]

/-- claim C10, witness: the passive media-type instance and a wrong-vendor
accept header. -/
theorem claim_C10_w :
    onRequest c8wOpts 1 noRoutes c10req none = StepResult.errorResp 415 (invalidMsg [1, 2]) :=
  claim_C10 c8wOpts 1 noRoutes c10req none rfl (by decide) (by decide) rfl (by decide)

/-- claim C10, counterexample: a passive instance with the legal vendor name
`v1` receiving the malformed header `application/vndzfoo.v1+json` — inside
the claim's stated range (subtype not matching the pattern) — does not
receive the invalidVersionErrorCode response: the extractor throws through
the regex's unescaped dot (subtypeFacets[2] is undefined) and the request
faults. -/
theorem claim_C10_cex :
    onRequest c10cexOpts 1 noRoutes c6req none = StepResult.fault := rfl

/-! Character-level lemmas for the query-preservation property. -/

theorem digitChar_ne_q (d : Nat) : digitChar d ≠ '?' := by
  rcases d with _|_|_|_|_|_|_|_|_|d <;>
    first
      | decide
      | exact (by decide : ('9' : Char) ≠ '?')

theorem mem_natToCharsAux (fuel : Nat) : ∀ (n : Nat) (acc : Str) (c : Char),
    c ∈ natToCharsAux fuel n acc → c ∈ acc ∨ ∃ d, c = digitChar d := by
  induction fuel with
  | zero => intro n acc c h; exact Or.inl h
  | succ fuel ih =>
    intro n acc c h
    simp only [natToCharsAux] at h
    split at h
    · rcases List.mem_cons.mp h with h | h
      · exact Or.inr ⟨n % 10, h⟩
      · exact Or.inl h
    · rcases ih (n / 10) (digitChar (n % 10) :: acc) c h with h | h
      · rcases List.mem_cons.mp h with h | h
        · exact Or.inr ⟨n % 10, h⟩
        · exact Or.inl h
      · exact Or.inr h

theorem mem_intToChars_ne_q (i : Int) (c : Char) (h : c ∈ intToChars i) : c ≠ '?' := by
  unfold intToChars at h
  split at h
  · rcases List.mem_cons.mp h with h | h
    · exact h ▸ (by decide : ('-' : Char) ≠ '?')
    · rcases mem_natToCharsAux _ _ _ _ h with h | ⟨d, rfl⟩
      · exact absurd h (List.not_mem_nil c)
      · exact digitChar_ne_q d
  · rcases mem_natToCharsAux _ _ _ _ h with h | ⟨d, rfl⟩
    · exact absurd h (List.not_mem_nil c)
    · exact digitChar_ne_q d

theorem splitFirst_not_mem (c : Char) (l : Str) (h : c ∉ l) : splitFirst c l = (l, none) := by
  induction l with
  | nil => rfl
  | cons x xs ih =>
    have hx : ¬ x = c := fun e => h (e ▸ List.mem_cons_self x xs)
    have hxs : c ∉ xs := fun hm => h (List.mem_cons_of_mem _ hm)
    simp [splitFirst, hx, ih hxs]

theorem splitFirst_append_not_mem (c : Char) (a b : Str) (h : c ∉ a) :
    splitFirst c (a ++ b) = (a ++ (splitFirst c b).1, (splitFirst c b).2) := by
  induction a with
  | nil => simp
  | cons x xs ih =>
    have hx : ¬ x = c := fun e => h (e ▸ List.mem_cons_self x xs)
    have hxs : c ∉ xs := fun hm => h (List.mem_cons_of_mem _ hm)
    simp [splitFirst, hx, ih hxs]

/-- Rewriting the url through `setUrl` with a `?`-free prefix inserted before
the old path keeps the query string intact and prepends the prefix to the
(dropped) path. -/
theorem setUrl_versioned (req : Request) (pre : Str) (k : Nat)
    (hk : k ≤ req.path.length) (hq : '?' ∉ req.path) (hpq : '?' ∉ pre) :
    setUrl req (pre ++ req.urlPath.drop k) =
      { req with path := pre ++ req.path.drop k } := by
  have hdrop : req.urlPath.drop k =
      req.path.drop k ++ (match req.rawQuery with | none => [] | some q => '?' :: q) := by
    unfold Request.urlPath
    exact List.drop_append_of_le_length hk
  have hP : '?' ∉ pre ++ req.path.drop k := by
    intro hm
    rcases List.mem_append.mp hm with hm | hm
    · exact hpq hm
    · exact hq (List.mem_of_mem_drop hm)
  unfold setUrl
  rw [hdrop, ← List.append_assoc, splitFirst_append_not_mem _ _ _ hP]
  cases hrq : req.rawQuery with
  | none => simp [splitFirst, hrq]
  | some q => simp [splitFirst, hrq]

/-- claim C7: whenever the pipeline rewrites a request's routing path (the
step reports a rewrite), the query string is preserved unchanged and the new
path is the version-qualified path: the version prefix followed, byte for
byte, by everything of the original path after the base-path prefix. -/
theorem claim_C7 (opts : Options) (n : Nat) (mr : Str → Str → Option Route)
    (req : Request) (pl0 : Option RequestPlugin) (req2 : Request)
    (pl2 : Option RequestPlugin)
    (hqp : '?' ∉ req.path) (hqb : '?' ∉ opts.basePath)
    (h : onRequest opts n mr req pl0 = StepResult.next req2 pl2 true) :
    req2.rawQuery = req.rawQuery ∧
    ∃ m : Int, req2.path =
      opts.basePath ++ vseg (JsVal.int m) ++ req.path.drop (opts.basePath.length - 1) := by
  unfold onRequest at h
  split at h
  · exact absurd h (by simp)
  · rename_i hskip
    have hklen : opts.basePath.length - 1 ≤ req.path.length := by
      have hor : (opts.basePath == js "/") = true ∨
          opts.basePath.isPrefixOf req.path = true := by
        revert hskip
        unfold basePathSkip
        cases opts.basePath == js "/" <;>
          cases List.isPrefixOf opts.basePath req.path <;> simp
      rcases hor with h1 | h1
      · have h2 : opts.basePath = js "/" := by simpa using h1
        rw [h2]
        simp [js]
      · have h2 := List.IsPrefix.length_le (Iff.mp List.isPrefixOf_iff_prefix h1)
        omega
    split at h
    · exact absurd h (by simp)
    · split at h
      · exact absurd h (by simp)
      · rename_i rv hex
        split at h
        · exact absurd h (by simp)
        · split at h
          · exact absurd h (by simp)
          · rename_i hg2
            split at h
            · exact absurd h (by simp)
            · have hmain : ∀ (m : Int) (flag : Bool),
                  rewriteStep opts req (bump pl0) (JsVal.int m, flag) mr =
                    StepResult.next req2 pl2 true →
                  req2.rawQuery = req.rawQuery ∧
                  ∃ m2 : Int, req2.path = opts.basePath ++ vseg (JsVal.int m2) ++
                    req.path.drop (opts.basePath.length - 1) := by
                intro m flag hrw
                unfold rewriteStep at hrw
                split at hrw
                · split at hrw
                  · injection hrw with h1 h2 h3
                    have hpq : '?' ∉ opts.basePath ++ vseg (JsVal.int m) := by
                      intro hm
                      rcases List.mem_append.mp hm with hm | hm
                      · exact hqb hm
                      · rcases List.mem_cons.mp hm with he | hm
                        · exact absurd he (by decide)
                        · exact mem_intToChars_ne_q m '?' hm rfl
                    have hs := setUrl_versioned req (opts.basePath ++ vseg (JsVal.int m))
                      (opts.basePath.length - 1) hklen hqp hpq
                    rw [hs] at h1
                    rw [← h1]
                    exact ⟨rfl, ⟨m, rfl⟩⟩
                  · exact absurd hrw (by simp)
                · exact absurd hrw (by simp)
              by_cases htr : truthy rv = true
              · rw [if_pos htr] at h
                have hcont : hoekContain opts.validVersions rv = true := by
                  cases hc : hoekContain opts.validVersions rv with
                  | true => rfl
                  | false => exact absurd (by rw [htr, hc] ; rfl) hg2
                cases rv with
                | null => exact absurd htr (by simp [truthy])
                | nan => exact absurd htr (by simp [truthy])
                | str s => exact absurd hcont (by simp [hoekContain])
                | int m => exact hmain m false h
              · rw [if_neg htr] at h
                exact hmain opts.defaultVersion true h

/-- claim C7, witness: the rewrite of the accept-header request preserves its
query string `version=1`. -/
theorem claim_C7_w :
    ({ method := js "get", path := js "/v2/users", rawQuery := some (js "version=1"),
       accept := some (js "application/vnd.mysuperapi.v2+json")} : Request).rawQuery =
      c5reqA.rawQuery ∧
    ∃ m : Int,
      ({ method := js "get", path := js "/v2/users", rawQuery := some (js "version=1"),
         accept := some (js "application/vnd.mysuperapi.v2+json")} : Request).path =
        c5opts1.basePath ++ vseg (JsVal.int m) ++
          c5reqA.path.drop (c5opts1.basePath.length - 1) :=
  claim_C7 c5opts1 2 c5mr c5reqA none _ _ (by decide) (by decide) rfl

/-- A non-passive instance that extracts no version while sibling instances
have not yet all run just increments the attempt counter and defers. -/
theorem onRequest_defer (o : Options) (n : Nat) (mr : Str → Str → Option Route)
    (req : Request) (pl0 : Option RequestPlugin) (k : Nat)
    (hbp : ((o.basePath == js "/") || o.basePath.isPrefixOf req.path) = true)
    (hpm : o.passiveMode = false)
    (hex : extractVersion o req = Except.ok JsVal.null)
    (hpl : pl0.getD initialPlugin = mkPl k)
    (hk : ¬ k + 1 = n) :
    onRequest o n mr req pl0 = StepResult.next req (some (mkPl (k + 1))) false := by
  have hnc : claimedB (pl0.getD initialPlugin) = false := by rw [hpl]; rfl
  have hbump : bump pl0 = mkPl (k + 1) := by unfold bump; rw [hpl]; rfl
  rw [onRequest_core o n mr req pl0 JsVal.null hbp hnc hex, hbump]
  simp [hpm, truthy, mkPl, bne_iff_ne, hk]

/-- The last instance to run, seeing no version extracted anywhere, applies
the default version; when a route exists at the default-qualified path the
url is rewritten and the default resolution is published. -/
theorem onRequest_applyDefault (o : Options) (n : Nat) (mr : Str → Str → Option Route)
    (req : Request) (pl0 : Option RequestPlugin) (k : Nat) (route : Route)
    (hbp : ((o.basePath == js "/") || o.basePath.isPrefixOf req.path) = true)
    (hpm : o.passiveMode = false)
    (hex : extractVersion o req = Except.ok JsVal.null)
    (hpl : pl0.getD initialPlugin = mkPl k)
    (hk : k + 1 = n)
    (hroute : mr req.method (versionedPathOf o o.defaultVersion req.path) = some route)
    (hpre2 : (o.basePath ++ vseg (JsVal.int o.defaultVersion) ++ js "/").isPrefixOf
      route.path = true) :
    onRequest o n mr req pl0 =
      StepResult.next
        (setUrl req (o.basePath ++ vseg (JsVal.int o.defaultVersion) ++
          req.urlPath.drop (o.basePath.length - 1)))
        (some { apiVersion := JsVal.int o.defaultVersion, useDefault := true, count := n,
                descriptor := some defaultStr }) true := by
  have hnc : claimedB (pl0.getD initialPlugin) = false := by rw [hpl]; rfl
  have hbump : bump pl0 = mkPl (k + 1) := by unfold bump; rw [hpl]; rfl
  rw [onRequest_core o n mr req pl0 JsVal.null hbp hnc hex, hbump]
  unfold versionedPathOf at hroute
  have hstep := rewriteStep_hit o req (mkPl (k + 1)) (JsVal.int o.defaultVersion, true) mr
    route hroute hpre2
  rw [hk] at hstep
  rw [hpm]
  simp only [truthy, Bool.false_and, Bool.not_false, Bool.true_and, Bool.false_eq_true,
    if_false, ite_false, mkPl_count, hk, bne_self_eq_false]
  rw [hstep]
  rfl

/-- Running the remaining instances over a request from which none extracts a
version: every instance defers until the last one applies the default
version `d` and, the route existing, publishes the default resolution. -/
theorem runAux_default (mr : Str → Str → Option Route) (req : Request) (d : Int) :
    ∀ (insts : List Options) (n k : Nat) (oLast : Options) (route : Route)
      (pl0 : Option RequestPlugin) (rw : Nat),
    insts.getLast? = some oLast →
    k + insts.length = n →
    (∀ o ∈ insts, o.defaultVersion = d ∧ o.passiveMode = false ∧
       ((o.basePath == js "/") || o.basePath.isPrefixOf req.path) = true ∧
       extractVersion o req = Except.ok JsVal.null) →
    mr req.method (versionedPathOf oLast d req.path) = some route →
    (oLast.basePath ++ vseg (JsVal.int d) ++ js "/").isPrefixOf route.path = true →
    pl0.getD initialPlugin = mkPl k →
    runPipelineAux n mr insts req pl0 rw =
      PipeResult.done
        (setUrl req (oLast.basePath ++ vseg (JsVal.int d) ++
          req.urlPath.drop (oLast.basePath.length - 1)))
        (some { apiVersion := JsVal.int d, useDefault := true, count := n,
                descriptor := some defaultStr }) (rw + 1) := by
  intro insts
  induction insts with
  | nil =>
    intro n k oLast route pl0 rw hlast
    simp at hlast
  | cons o rest ih =>
    intro n k oLast route pl0 rw hlast hlen hall hroute hpre2 hpl
    cases rest with
    | nil =>
      have ho : o = oLast := by simpa using hlast
      subst ho
      obtain ⟨hd, hpm, hbp, hex⟩ := hall o (by simp)
      have hk : k + 1 = n := by simpa using hlen
      have hroute2 : mr req.method (versionedPathOf o o.defaultVersion req.path) =
          some route := by rw [hd]; exact hroute
      have hpre3 : (o.basePath ++ vseg (JsVal.int o.defaultVersion) ++ js "/").isPrefixOf
          route.path = true := by rw [hd]; exact hpre2
      simp only [runPipelineAux]
      rw [onRequest_applyDefault o n mr req pl0 k route hbp hpm hex hpl hk hroute2 hpre3]
      simp [runPipelineAux, hd]
    | cons o2 rest2 =>
      obtain ⟨hd, hpm, hbp, hex⟩ := hall o (by simp)
      have hk : ¬ k + 1 = n := by
        simp only [List.length_cons] at hlen
        omega
      simp only [runPipelineAux]
      rw [onRequest_defer o n mr req pl0 k hbp hpm hex hpl hk]
      have hlast2 : (o2 :: rest2).getLast? = some oLast := by
        rw [List.getLast?_cons_cons] at hlast
        exact hlast
      have hres := ih n (k + 1) oLast route (some (mkPl (k + 1))) rw hlast2
        (by simp only [List.length_cons] at hlen ⊢; omega)
        (fun o3 ho3 => hall o3 (List.mem_cons_of_mem _ ho3)) hroute hpre2 rfl
      simpa using hres

/-- claim C3 (amended): with every registered instance non-passive, active on
the request's path, agreeing on the default version d (a member of its
validVersions), and extracting no version from the request, and with a route
registered at the d-qualified path, the pipeline — once all instances have
run — applies d, rewrites to the d-qualified path and publishes the
resolution `apiVersion = d`, `useDefault = true` with the literal descriptor
`default` and the full attempt count.  (Without such a route nothing is
published: see the counterexample.) -/
theorem claim_C3 (insts : List Options) (mr : Str → Str → Option Route)
    (req : Request) (d : Int) (oLast : Options) (route : Route)
    (hlast : insts.getLast? = some oLast)
    (hall : ∀ o ∈ insts, o.defaultVersion = d ∧ o.validVersions.contains d = true ∧
       o.passiveMode = false ∧
       ((o.basePath == js "/") || o.basePath.isPrefixOf req.path) = true ∧
       extractVersion o req = Except.ok JsVal.null)
    (hroute : mr req.method (versionedPathOf oLast d req.path) = some route)
    (hpre2 : (oLast.basePath ++ vseg (JsVal.int d) ++ js "/").isPrefixOf route.path = true) :
    ∃ req2, runPipeline insts mr req =
      PipeResult.done req2
        (some { apiVersion := JsVal.int d, useDefault := true, count := insts.length,
                descriptor := some defaultStr }) 1 := by
  refine ⟨setUrl req (oLast.basePath ++ vseg (JsVal.int d) ++
    req.urlPath.drop (oLast.basePath.length - 1)), ?_⟩
  unfold runPipeline
  exact runAux_default mr req d insts insts.length 0 oLast route none 0 hlast (by simp)
    (fun o ho => ⟨(hall o ho).1, (hall o ho).2.2.1, (hall o ho).2.2.2.1,
      (hall o ho).2.2.2.2⟩) hroute hpre2 rfl

/-- claim C3, witness: one media-type instance, a request without an accept
header and a route table containing `/v1/users`. -/
theorem claim_C3_w :
    ∃ req2, runPipeline [c3opts] c5mr c3req =
      PipeResult.done req2
        (some { apiVersion := JsVal.int 1, useDefault := true, count := 1,
                descriptor := some defaultStr }) 1 :=
  claim_C3 [c3opts] c5mr c3req 1 c3opts (Route.mk (js "/v1/users")) rfl
    (by intro o ho; simp at ho; subst ho; exact ⟨rfl, by decide, rfl, by decide, rfl⟩)
    rfl (by decide)

theorem unclaimed_of_not (pl0 : Option RequestPlugin)
    (hcl : ¬ claimedB (pl0.getD initialPlugin) = true) : ¬ claimedOpt pl0 = true := by
  rw [← claimedB_getD]
  exact hcl

/-- Structure of any pass-on outcome of one onRequest invocation: the attempt
counter grows by at most one; a rewrite sets it to exactly one more and
leaves either a claimed state or, for a default resolution, the full server
count; and an already claimed request is passed on entirely untouched. -/
theorem onRequest_next_facts (opts : Options) (n : Nat) (mr : Str → Str → Option Route)
    (req : Request) (pl0 : Option RequestPlugin) (req2 : Request)
    (pl2 : Option RequestPlugin) (b : Bool)
    (h : onRequest opts n mr req pl0 = StepResult.next req2 pl2 b) :
    pluginCount pl2 ≤ pluginCount pl0 + 1 ∧
    (b = true → pluginCount pl2 = pluginCount pl0 + 1 ∧
      (claimedOpt pl2 = true ∨ pluginCount pl2 = n)) ∧
    (claimedOpt pl0 = true → req2 = req ∧ pl2 = pl0 ∧ b = false) := by
  unfold onRequest at h
  split at h
  · injection h with h1 h2 h3
    subst h1; subst h2; subst h3
    exact ⟨Nat.le_succ _, fun hb => absurd hb (by simp), fun _ => ⟨rfl, rfl, rfl⟩⟩
  · rename_i hskip
    split at h
    · rename_i hcl
      injection h with h1 h2 h3
      subst h1; subst h2; subst h3
      cases pl0 with
      | none => exact absurd hcl (by decide)
      | some p =>
        exact ⟨Nat.le_succ _, fun hb => absurd hb (by simp), fun _ => ⟨rfl, rfl, rfl⟩⟩
    · rename_i hcl
      split at h
      · exact absurd h (by simp)
      · rename_i rv hex
        split at h
        · rename_i hg1
          injection h with h1 h2 h3
          subst h1; subst h2; subst h3
          exact ⟨Nat.le_of_eq (bump_count pl0), fun hb => absurd hb (by simp),
            fun hc => absurd hc (unclaimed_of_not pl0 hcl)⟩
        · rename_i hg1
          split at h
          · exact absurd h (by simp)
          · rename_i hg2
            split at h
            · rename_i hg3
              injection h with h1 h2 h3
              subst h1; subst h2; subst h3
              exact ⟨Nat.le_of_eq (bump_count pl0), fun hb => absurd hb (by simp),
                fun hc => absurd hc (unclaimed_of_not pl0 hcl)⟩
            · rename_i hg3
              by_cases htr : truthy rv = true
              · rw [if_pos htr] at h
                unfold rewriteStep at h
                split at h
                · rename_i route hmr
                  split at h
                  · injection h with h1 h2 h3
                    subst h1; subst h2; subst h3
                    refine ⟨Nat.le_of_eq (bump_count pl0),
                      fun _ => ⟨bump_count pl0, Or.inl ?_⟩,
                      fun hc => absurd hc (unclaimed_of_not pl0 hcl)⟩
                    simp [claimedOpt, claimedB, resolvedPlugin, htr]
                  · injection h with h1 h2 h3
                    subst h1; subst h2; subst h3
                    exact ⟨Nat.le_of_eq (bump_count pl0), fun hb => absurd hb (by simp),
                      fun hc => absurd hc (unclaimed_of_not pl0 hcl)⟩
                · injection h with h1 h2 h3
                  subst h1; subst h2; subst h3
                  exact ⟨Nat.le_of_eq (bump_count pl0), fun hb => absurd hb (by simp),
                    fun hc => absurd hc (unclaimed_of_not pl0 hcl)⟩
              · have htr2 : truthy rv = false := by revert htr; cases truthy rv <;> simp
                have hcntn : (bump pl0).count = n := by
                  rw [htr2] at hg3
                  simpa [bne_iff_ne] using hg3
                rw [if_neg htr] at h
                unfold rewriteStep at h
                split at h
                · rename_i route hmr
                  split at h
                  · injection h with h1 h2 h3
                    subst h1; subst h2; subst h3
                    refine ⟨Nat.le_of_eq (bump_count pl0),
                      fun _ => ⟨bump_count pl0, Or.inr ?_⟩,
                      fun hc => absurd hc (unclaimed_of_not pl0 hcl)⟩
                    rw [← hcntn]
                    rfl
                  · injection h with h1 h2 h3
                    subst h1; subst h2; subst h3
                    exact ⟨Nat.le_of_eq (bump_count pl0), fun hb => absurd hb (by simp),
                      fun hc => absurd hc (unclaimed_of_not pl0 hcl)⟩
                · injection h with h1 h2 h3
                  subst h1; subst h2; subst h3
                  exact ⟨Nat.le_of_eq (bump_count pl0), fun hb => absurd hb (by simp),
                    fun hc => absurd hc (unclaimed_of_not pl0 hcl)⟩

/-- Invariant-carrying induction: running any remaining instances performs at
most one rewrite in total, given that `i` instances have already examined the
request, the counter is at most `i`, and a rewrite already accounted for
implies a claimed state (or that every instance has already run). -/
theorem runAux_rewrites_le (mr : Str → Str → Option Route) :
    ∀ (insts : List Options) (n i : Nat) (req : Request) (pl : Option RequestPlugin)
      (rw : Nat),
    pluginCount pl ≤ i → rw ≤ 1 → (rw = 1 → claimedOpt pl = true ∨ n ≤ i) →
    i + insts.length ≤ n →
    rewritesOf (runPipelineAux n mr insts req pl rw) ≤ 1 := by
  intro insts
  induction insts with
  | nil =>
    intro n i req pl rw hc hrw hone hlen
    exact hrw
  | cons o rest ih =>
    intro n i req pl rw hc hrw hone hlen
    have hlen2 : (i + 1) + rest.length ≤ n := by
      simp only [List.length_cons] at hlen
      omega
    simp only [runPipelineAux]
    cases hstep : onRequest o n mr req pl with
    | errorResp c m => exact hrw
    | fault => exact hrw
    | next req2 pl2 b =>
      obtain ⟨f1, f2, f3⟩ := onRequest_next_facts o n mr req pl req2 pl2 b hstep
      cases b with
      | false =>
        show rewritesOf (runPipelineAux n mr rest req2 pl2 rw) ≤ 1
        refine ih n (i + 1) req2 pl2 rw (by omega) hrw ?_ hlen2
        intro h1
        rcases hone h1 with hcl | hni
        · obtain ⟨-, hpl2, -⟩ := f3 hcl
          rw [hpl2]
          exact Or.inl hcl
        · exact Or.inr (by omega)
      | true =>
        have hrw0 : rw = 0 := by
          by_contra hne
          have h1 : rw = 1 := by omega
          rcases hone h1 with hcl | hni
          · obtain ⟨-, -, hb⟩ := f3 hcl
            exact absurd hb (by simp)
          · omega
        subst hrw0
        obtain ⟨hcnt, hdisj⟩ := f2 rfl
        show rewritesOf (runPipelineAux n mr rest req2 pl2 1) ≤ 1
        refine ih n (i + 1) req2 pl2 1 (by omega) (by omega) ?_ hlen2
        intro _
        rcases hdisj with hcl2 | hn
        · exact Or.inl hcl2
        · exact Or.inr (by omega)

/-- claim C4 (amended): at most one pipeline instance ever performs the path
rewrite for a given request; and once an instance has resolved a concrete,
non-default version and performed the rewrite — publishing a claimed
resolution (truthy apiVersion, useDefault false) — every later instance
passes the request on with its path, state and outcome untouched.  (An
instance that produces a valid version for which no matching route exists
does not claim the request, and a later instance may then re-resolve and
rewrite it: see the counterexample.) -/
theorem claim_C4 :
    (∀ (insts : List Options) (mr : Str → Str → Option Route) (req : Request),
      rewritesOf (runPipeline insts mr req) ≤ 1) ∧
    (∀ (opts : Options) (n : Nat) (mr : Str → Str → Option Route) (req : Request)
        (p : RequestPlugin), claimedB p = true →
      onRequest opts n mr req (some p) = StepResult.next req (some p) false) := by
  constructor
  · intro insts mr req
    unfold runPipeline
    exact runAux_rewrites_le mr insts insts.length 0 req none 0 (Nat.le_refl 0)
      (by omega) (fun h1 => absurd h1 (by omega)) (by omega)
  · intro opts n mr req p hp
    unfold onRequest
    split
    · rfl
    · simp [Option.getD_some, hp]

/-- claim C4, witness: the two-instance pipeline performs at most one rewrite
on the concrete request, and an instance invoked on an already claimed
request state passes it on untouched. -/
theorem claim_C4_w :
    rewritesOf (runPipeline [c4opts1, c4opts2] c4mr c2req) ≤ 1 ∧
    onRequest c5opts1 2 c5mr c5reqA (some c4claimedPl) =
      StepResult.next c5reqA (some c4claimedPl) false :=
  ⟨claim_C4.1 [c4opts1, c4opts2] c4mr c2req,
   claim_C4.2 c5opts1 2 c5mr c5reqA c4claimedPl (by decide)⟩

/-- What a successful run of the tail of the options validation guarantees. -/
theorem validateOptionsTail_ok_inv (raw : RawOptions) (vv : List Int) (d : Int)
    (opts : Options) (h : validateOptionsTail raw vv d = Except.ok opts) :
    opts.validVersions = vv ∧ opts.defaultVersion = d ∧
    ¬ (raw.vendorName.isSome = true ∧ raw.getVersion.isSome = true) ∧
    (raw.vendorName.isSome = true ∨ raw.getVersion.isSome = true) ∧
    opts.descriptor = raw.descriptor.getD (js "mediatype") := by
  unfold validateOptionsTail at h
  split at h
  · exact absurd h (by simp)
  · split at h
    · exact absurd h (by simp)
    · split at h
      · exact absurd h (by simp)
      · exact absurd h (by simp)
      · rename_i hboth hnone
        injection h with h1
        subst h1
        refine ⟨rfl, rfl, ?_, ?_, rfl⟩
        · rintro ⟨h5a, h5b⟩
          obtain ⟨va, hva⟩ := Option.isSome_iff_exists.mp h5a
          obtain ⟨vb, hvb⟩ := Option.isSome_iff_exists.mp h5b
          exact hboth va vb hva hvb
        · cases hvn : raw.vendorName with
          | some x => exact Or.inl (by simp [hvn])
          | none =>
            cases hgv : raw.getVersion with
            | some g => exact Or.inr (by simp [hgv])
            | none => exact (hnone hvn hgv).elim

/-- What a successful options validation guarantees about the raw options. -/
theorem validateOptions_ok_inv (raw : RawOptions) (opts : Options)
    (h : validateOptions raw = Except.ok opts) :
    raw.validVersions = some opts.validVersions ∧
    opts.validVersions ≠ [] ∧
    raw.defaultVersion = some opts.defaultVersion ∧
    opts.validVersions.contains opts.defaultVersion = true ∧
    ¬ (raw.vendorName.isSome = true ∧ raw.getVersion.isSome = true) ∧
    (raw.vendorName.isSome = true ∨ raw.getVersion.isSome = true) ∧
    opts.descriptor = raw.descriptor.getD (js "mediatype") := by
  unfold validateOptions at h
  split at h
  · exact absurd h (by simp)
  · rename_i vv hvv
    split at h
    · exact absurd h (by simp)
    · rename_i hlen
      split at h
      · exact absurd h (by simp)
      · rename_i d hd
        split at h
        · exact absurd h (by simp)
        · rename_i hmem
          split at h
          · exact absurd h (by simp)
          · rename_i hbp
            have hvvne : vv ≠ [] := by
              intro he
              subst he
              simp at hlen
            have hcont : vv.contains d = true := by
              cases hc : vv.contains d with
              | true => rfl
              | false => exact absurd (by rw [hc]; rfl) hmem
            have hfin : ∀ h2 : validateOptionsTail raw vv d = Except.ok opts,
                raw.validVersions = some opts.validVersions ∧
                opts.validVersions ≠ [] ∧
                raw.defaultVersion = some opts.defaultVersion ∧
                opts.validVersions.contains opts.defaultVersion = true ∧
                ¬ (raw.vendorName.isSome = true ∧ raw.getVersion.isSome = true) ∧
                (raw.vendorName.isSome = true ∨ raw.getVersion.isSome = true) ∧
                opts.descriptor = raw.descriptor.getD (js "mediatype") := by
              intro h2
              obtain ⟨t1, t2, t3, t4, t5⟩ := validateOptionsTail_ok_inv raw vv d opts h2
              subst t1
              subst t2
              exact ⟨hvv, hvvne, hd, hcont, t3, t4, t5⟩
            split at h
            · rename_i vn hvn
              split at h
              · exact absurd h (by simp)
              · exact hfin h
            · exact hfin h

/-- claim C9 (amended): registration is refused, with an error reported to the
registration callback and the server left unchanged (no handler added, so no
request is ever rewritten by the refused instance), for: a missing
validVersions or defaultVersion, an empty validVersions, a defaultVersion not
in validVersions, both or neither of vendorName / getVersion, or a descriptor
already claimed.  validVersions is only required to be a non-empty integer
array: positivity (or distinctness) of the versions is not checked — see the
counterexample, which registers validVersions `[-1]` successfully. -/
theorem claim_C9 (raw : RawOptions) (s : ServerState)
    (hbad : raw.validVersions = none ∨ raw.validVersions = some [] ∨
      raw.defaultVersion = none ∨
      (∃ vv d, raw.validVersions = some vv ∧ raw.defaultVersion = some d ∧
        vv.contains d = false) ∨
      (raw.vendorName.isSome = true ∧ raw.getVersion.isSome = true) ∨
      (raw.vendorName = none ∧ raw.getVersion = none) ∨
      s.descriptors.contains (raw.descriptor.getD (js "mediatype")) = true) :
    (registerS raw s).1 = s ∧ ((registerS raw s).2).isSome = true := by
  cases hv : validateOptions raw with
  | error e =>
    have hr : registerS raw s = (s, some e) := by
      unfold registerS
      rw [hv]
    rw [hr]
    exact ⟨rfl, rfl⟩
  | ok opts =>
    obtain ⟨i1, i2, i3, i4, i5, i6, i7⟩ := validateOptions_ok_inv raw opts hv
    rcases hbad with hb | hb | hb | ⟨vv, d, hb1, hb2, hb3⟩ | hb | hb | hb
    · rw [hb] at i1
      exact absurd i1 (by simp)
    · rw [hb] at i1
      have : opts.validVersions = [] := by
        injection i1 with i1e
        exact i1e.symm
      exact absurd this i2
    · rw [hb] at i3
      exact absurd i3 (by simp)
    · rw [hb1] at i1
      rw [hb2] at i3
      have e1 : opts.validVersions = vv := by
        injection i1 with i1e
        exact i1e.symm
      have e2 : opts.defaultVersion = d := by
        injection i3 with i3e
        exact i3e.symm
      rw [e1, e2] at i4
      rw [i4] at hb3
      exact absurd hb3 (by simp)
    · exact absurd hb i5
    · rcases i6 with i6 | i6
      · rw [hb.1] at i6
        exact absurd i6 (by simp)
      · rw [hb.2] at i6
        exact absurd i6 (by simp)
    · have hcond : s.descriptors.contains opts.descriptor = true := by
        rw [i7]
        exact hb
      have hr : registerS raw s =
          (s, some (js "hapi-api-version plugins contain duplicate descriptors")) := by
        unfold registerS
        rw [hv]
        show (if s.descriptors.contains opts.descriptor = true then
            (s, some (js "hapi-api-version plugins contain duplicate descriptors"))
          else ({ count := s.count + 1, descriptors := s.descriptors ++ [opts.descriptor],
                  instances := s.instances ++ [opts] }, none)) =
          (s, some (js "hapi-api-version plugins contain duplicate descriptors"))
        rw [if_pos hcond]
      rw [hr]
      exact ⟨rfl, rfl⟩

/-- claim C9, witness: raw options missing the required validVersions field
are refused and leave the server untouched. -/
theorem claim_C9_w :
    (registerS c9wRaw emptyServer).1 = emptyServer ∧
    ((registerS c9wRaw emptyServer).2).isSome = true :=
  claim_C9 c9wRaw emptyServer (Or.inl rfl)
